import Mathlib

/-!
Verification of the obsidianAI plugin (recording lifecycle and transcription
pipeline).  The TypeScript sources under `src/` are shallowly embedded as
executable Lean definitions: JavaScript strings become `String` values
manipulated through their underlying `List Char`, stateful methods of
`RecordingManager` become explicit state-passing functions, network calls are
resolved against explicit oracle parameters, and exceptions become `Except` or
`Option` results.  Host (Obsidian / browser) primitives that the plugin merely
calls through are modelled by small total functions and marked as such in
their doc comments.
-/

set_option maxRecDepth 8000
namespace ObsidianAI

/-! ### JavaScript string primitives

The plugin manipulates JS strings; Lean string builtins are re-implemented
over `String.data` so that every operation computes by kernel reduction. -/

/-- JavaScript `a || b` on strings: the empty string is falsy. -/
def jsOr (a b : String) : String :=
  if a = "" then b else a

/-- Characters matched by the JS regex class `\s` (ASCII range), as used by
`String.prototype.trim` and the `###\s+Recording` heading test. -/
def isJsSpace (c : Char) : Bool :=
  c == ' ' || c == '\t' || c == '\n' || c == '\r' || c == Char.ofNat 11 || c == Char.ofNat 12

/-- JavaScript `s.trim()`: drop leading and trailing whitespace. -/
def jsTrim (s : String) : String :=
  String.mk (((s.data.dropWhile isJsSpace).reverse.dropWhile isJsSpace).reverse)

/-- JavaScript `toLowerCase` on one ASCII character. -/
def jsToLowerChar (c : Char) : Char :=
  if 'A' ≤ c ∧ c ≤ 'Z' then Char.ofNat (c.toNat + 32) else c

/-- JavaScript `s.toLowerCase()` (ASCII). -/
def jsToLower (s : String) : String :=
  String.mk (s.data.map jsToLowerChar)

/-- JavaScript replace-all of dashes by underscores (the global dash regex). -/
def jsDashToUnderscore (s : String) : String :=
  String.mk (s.data.map (fun c => if c = '-' then '_' else c))

/-- JavaScript `s.padStart(n, c)`. -/
def jsPadStart (s : String) (n : Nat) (c : Char) : String :=
  String.mk (List.replicate (n - s.data.length) c ++ s.data)

/-- JavaScript `parts.join(sep)`. -/
def jsJoin (sep : String) (parts : List String) : String :=
  String.mk (List.intercalate sep.data (parts.map String.data))

/-- JavaScript `s.split(sep)` for a one-character separator. -/
def jsSplitChar (sep : Char) (s : String) : List String :=
  (s.data.splitOn sep).map String.mk

/-- JavaScript `s.includes(sub)`: substring containment. -/
def jsIncludes (s sub : String) : Bool :=
  decide (sub.data <:+: s.data)

/-! ### Pure helpers of `src/recording.ts` -/

/-- Embeds `formatTimestamp` (src/recording.ts:606): integer milliseconds to
zero-padded `HH:MM:SS`, floor-truncated. -/
def formatTimestamp (ms : Nat) : String :=
  let totalSeconds := ms / 1000
  let hours := totalSeconds / 3600
  let minutes := totalSeconds % 3600 / 60
  let seconds := totalSeconds % 60
  let hh := jsPadStart (toString hours) 2 '0'
  let mm := jsPadStart (toString minutes) 2 '0'
  let ss := jsPadStart (toString seconds) 2 '0'
  hh ++ ":" ++ mm ++ ":" ++ ss

/-- One iteration of the collision loop in `uniquePath` (src/recording.ts:595):
split the current candidate on every dot, pop the extension, and append
`-counter` before it. -/
def uniquePathStep (candidate : String) (counter : Nat) : String :=
  let parts := jsSplitChar '.' candidate
  let ext := parts.getLastD ""
  let base := jsJoin "." parts.dropLast
  base ++ "-" ++ toString counter ++ "." ++ ext

/-- The while-loop of `uniquePath` (src/recording.ts:591), with explicit fuel.
Each iteration requires the current candidate to be a vault path, and every
candidate is strictly longer than the previous one, so the loop runs at most
`vaultPaths.length` times; fuel `vaultPaths.length + 1` is never exhausted. -/
def uniquePathAux (vaultPaths : List String) : String → Nat → Nat → String
  | candidate, _counter, 0 => candidate
  | candidate, counter, fuel + 1 =>
    if candidate ∈ vaultPaths then
      uniquePathAux vaultPaths (uniquePathStep candidate counter) (counter + 1) fuel
    else
      candidate

/-- Embeds `uniquePath` (src/recording.ts:591): the vault is modelled by the
list of its existing paths (`getAbstractFileByPath` returns non-null exactly
on membership). -/
def uniquePath (vaultPaths : List String) (initialPath : String) : String :=
  uniquePathAux vaultPaths initialPath 1 (vaultPaths.length + 1)

/-! ### Transcript data model and formatter (src/recording.ts:15 and 534) -/

/-- Embeds the `Utterance` interface (src/recording.ts:20): every field is
optional in the service payload. -/
structure Utterance where
  start : Option Nat
  speaker : Option String
  text : Option String

/-- Embeds the `TranscriptionResult` interface (src/recording.ts:15). -/
structure TranscriptionResult where
  text : String
  utterances : List Utterance

/-- JavaScript falsiness of an optional string: absent or empty. -/
def strFalsy (o : Option String) : Bool :=
  match o with
  | none => true
  | some s => s.data.isEmpty

/-- Lookup in the insertion-ordered association list that models the JS
`Map<string, number>` used for speaker numbering. -/
def mapFind (m : List (String × Nat)) (k : String) : Option Nat :=
  match m with
  | [] => none
  | p :: rest => if p.1 = k then some p.2 else mapFind rest k

/-- Embeds the `utterances.map(...)` stage of `formatTranscript`
(src/recording.ts:539) together with the null-removal half of the
`.filter(Boolean)` at recording.ts:559: the mutable `speakerMap` and
`nextSpeakerNumber` of the closure are threaded explicitly, and utterances
whose text is falsy map to null and are dropped without touching the map.
`Boolean` is also false of the empty string, so the filter additionally
drops empty rendered lines; that half is applied by `listFilterTruthy` in
`formatTranscript`. -/
def formatUtterancesAux : List Utterance → List (String × Nat) → Nat → List String
  | [], _, _ => []
  | u :: rest, speakerMap, nextSpeakerNumber =>
    if strFalsy u.text then
      formatUtterancesAux rest speakerMap nextSpeakerNumber
    else
      let tsParts : List String :=
        match u.start with
        | some ms => ["[" ++ formatTimestamp ms ++ "]"]
        | none => []
      match u.speaker with
      | some sp =>
        if sp = "" then
          jsJoin " " (tsParts ++ [jsTrim (u.text.getD "")])
            :: formatUtterancesAux rest speakerMap nextSpeakerNumber
        else
          let updated :=
            if (mapFind speakerMap sp).isSome then (speakerMap, nextSpeakerNumber)
            else (speakerMap ++ [(sp, nextSpeakerNumber)], nextSpeakerNumber + 1)
          let label := (mapFind updated.1 sp).getD 0
          jsJoin " " (tsParts ++ ["**Speaker " ++ toString label ++ ":**", jsTrim (u.text.getD "")])
            :: formatUtterancesAux rest updated.1 updated.2
      | none =>
        jsJoin " " (tsParts ++ [jsTrim (u.text.getD "")])
          :: formatUtterancesAux rest speakerMap nextSpeakerNumber

/-- The empty-string half of the JS `.filter(Boolean)` on rendered lines:
`Boolean` is false of `""`, so a line that rendered to the empty string
(truthy whitespace-only text with neither timestamp nor speaker) is
removed. -/
def listFilterTruthy (lines : List String) : List String :=
  lines.filter (fun l => decide (l ≠ ""))

/-- Embeds `formatTranscript` (src/recording.ts:534): map the utterances,
apply `.filter(Boolean)` (nulls are dropped inside `formatUtterancesAux`,
empty strings by `listFilterTruthy`), and join with newlines. -/
def formatTranscript (result : TranscriptionResult) : String :=
  if 0 < result.utterances.length then
    jsJoin "\n" (listFilterTruthy (formatUtterancesAux result.utterances [] 1))
  else
    result.text

/-! ### The transcript polling loop (src/recording.ts:356) -/

/-- JavaScript `o || dflt` on an optional string: absent and empty are falsy. -/
def jsOrOpt (o : Option String) (dflt : String) : String :=
  match o with
  | some s => if s = "" then dflt else s
  | none => dflt

/-- One poll response of `GET /v2/transcript/:id`, as read by
`waitForTranscript` (src/recording.ts:365): a status plus the optional
payload fields the loop inspects. -/
structure PollData where
  status : String
  text : Option String
  utterances : Option (List Utterance)
  error : Option String

/-- The body of one loop iteration of `waitForTranscript`
(src/recording.ts:368): `completed` returns the result, `error` throws the
service message (with the source fallback text), anything else polls again. -/
def pollOutcome (d : PollData) : Option (Except String TranscriptionResult) :=
  if d.status = "completed" then
    some (Except.ok ⟨d.text.getD "", d.utterances.getD []⟩)
  else if d.status = "error" then
    some (Except.error (jsOrOpt d.error "AssemblyAI returned an error."))
  else
    none

/-- The `for (attempt = 0; attempt < 40; attempt++)` loop of
`waitForTranscript`, with the remaining attempt budget as fuel.  The second
component counts the `GET` requests actually performed. -/
def waitForTranscriptAux (resp : Nat → PollData) :
    Nat → Nat → Except String TranscriptionResult × Nat
  | attempt, 0 => (Except.error "Transcription timed out.", attempt)
  | attempt, fuel + 1 =>
    match pollOutcome (resp attempt) with
    | some r => (r, attempt + 1)
    | none => waitForTranscriptAux resp (attempt + 1) fuel

/-- Embeds `waitForTranscript` (src/recording.ts:356): the remote job is
modelled by the sequence of responses the service would return on successive
polls; the result is paired with the number of polls performed. -/
def waitForTranscript (resp : Nat → PollData) : Except String TranscriptionResult × Nat :=
  waitForTranscriptAux resp 0 40

/-- Poll oracle that never reaches a terminal status. -/
def pollAlwaysProcessing : Nat → PollData :=
  fun _ => ⟨"processing", none, none, none⟩

/-- Poll oracle that reports a service error on attempt 3. -/
def pollErrorAt3 : Nat → PollData :=
  fun i => if i = 3 then ⟨"error", none, none, some "boom"⟩ else ⟨"queued", none, none, none⟩

/-- Poll oracle that completes on attempt 2. -/
def pollCompletedAt2 : Nat → PollData :=
  fun i => if i = 2 then ⟨"completed", some "hi there", none, none⟩
           else ⟨"processing", none, none, none⟩

/-! ### C4: speaker numbering follows first appearance

The claim is settled as a refinement: `formatTranscriptSpec` renders every
utterance with the display number demanded by the spec (one plus the position
of the speaker label in the global first-appearance order), and is proved
equal to the embedded `formatTranscript`, whose numbers instead come from the
lazily populated map. -/

/-- Position of the first occurrence of a string in a list (length of the
list when absent). -/
def idxOf1 (s : String) : List String → Nat
  | [] => 0
  | a :: rest => if a = s then 0 else idxOf1 s rest + 1

/-- First-appearance accumulation of the speaker labels of rendered
utterances: exactly the keys the code inserts into its speaker map, in
insertion order, continuing from `seen`. -/
def renderedSpeakersFrom : List Utterance → List String → List String
  | [], seen => seen
  | u :: rest, seen =>
    if strFalsy u.text then renderedSpeakersFrom rest seen
    else
      match u.speaker with
      | some sp =>
        if sp = "" then renderedSpeakersFrom rest seen
        else renderedSpeakersFrom rest (if sp ∈ seen then seen else seen ++ [sp])
      | none => renderedSpeakersFrom rest seen

/-- The first-appearance order of distinct speaker labels over a whole
utterance list. -/
def speakersInOrder (us : List Utterance) : List String :=
  renderedSpeakersFrom us []

/-- Specification-side rendering of one utterance: the display number of a
speaker is one plus its position in the given first-appearance order `ord`,
not a value threaded through a mutable map. -/
def specLine (ord : List String) (u : Utterance) : Option String :=
  if strFalsy u.text then none
  else
    let tsParts : List String :=
      match u.start with
      | some ms => ["[" ++ formatTimestamp ms ++ "]"]
      | none => []
    let spParts : List String :=
      match u.speaker with
      | some sp =>
        if sp = "" then []
        else ["**Speaker " ++ toString (idxOf1 sp ord + 1) ++ ":**"]
      | none => []
    some (jsJoin " " (tsParts ++ spParts ++ [jsTrim (u.text.getD "")]))

/-- Specification-side formatter, following the words of the spec: each
distinct speaker label gets the sequential display number given by its first
appearance, starting at 1; blank lines are never produced (the same
`Boolean` filter on rendered lines as the program). -/
def formatTranscriptSpec (result : TranscriptionResult) : String :=
  if 0 < result.utterances.length then
    jsJoin "\n" (listFilterTruthy
      (result.utterances.filterMap (specLine (speakersInOrder result.utterances))))
  else
    result.text

/-- The association list holding `seen` keyed in order with numbers starting
at `k`: the state of the speaker map after the speakers of `seen` have been
inserted. -/
def numberedFrom : Nat → List String → List (String × Nat)
  | _, [] => []
  | k, s :: rest => (s, k) :: numberedFrom (k + 1) rest

/-! ### Settings (src/settings.ts) -/

/-- Embeds the nested `transcriptionSettings` record (src/settings.ts:12). -/
structure TranscriptionSettingsT where
  language : String
  accuracySpeed : String

/-- Embeds the `ObsidianAIPluginSettings` interface (src/settings.ts:4).
The legacy `openAIKey` is optional in the interface and is modelled as an
`Option`; all other strings are always present. -/
structure ObsidianAIPluginSettings where
  peopleFolder : String
  meetingsFolder : String
  projectsFolder : String
  mocFolder : String
  summariesFolder : String
  fallbackMOC : String
  assemblyAIKey : String
  transcriptionSettings : TranscriptionSettingsT
  audioFolderPath : String
  transcriptionFolderPath : String
  openAIKey : Option String
  openAiApiKey : String
  openAiModel : String
  openAiApiBaseUrl : String
  autoSummarise : Bool

/-- Embeds `DEFAULT_SETTINGS` (src/settings.ts:25). -/
def DEFAULT_SETTINGS : ObsidianAIPluginSettings where
  peopleFolder := "People/"
  meetingsFolder := "Meetings/"
  projectsFolder := "Projects/"
  mocFolder := "MOCs/"
  summariesFolder := "Summaries/"
  fallbackMOC := "MOCs/Miscellaneous.md"
  assemblyAIKey := ""
  transcriptionSettings := ⟨"en-US", "balanced"⟩
  audioFolderPath := "Audio"
  transcriptionFolderPath := "Transcriptions"
  openAIKey := some ""
  openAiApiKey := ""
  openAiModel := "gpt-4.1-mini"
  openAiApiBaseUrl := "https://api.openai.com/v1"
  autoSummarise := true

/-! ### C7: transcription job submission body (src/recording.ts:315) -/

/-- The JSON body posted to `POST /v2/transcript` (src/recording.ts:325). -/
structure TranscriptRequestBody where
  audio_url : String
  speaker_labels : Bool
  language_code : String
  punctuate : Bool
  format_text : Bool
  dual_channel : Bool
  disfluencies : Bool

/-- Embeds the body construction of `requestTranscript`
(src/recording.ts:315): trim the configured language, default blank to
`en_us`, otherwise lower-case it and replace hyphens by underscores; fixed
boolean options; disfluencies only in accurate mode. -/
def requestTranscriptBody (uploadUrl : String) (settings : ObsidianAIPluginSettings) :
    TranscriptRequestBody :=
  let transcriptionSettings := settings.transcriptionSettings
  let language0 := jsTrim transcriptionSettings.language
  let language :=
    if language0 = "" then "en_us" else jsDashToUnderscore (jsToLower language0)
  { audio_url := uploadUrl
    speaker_labels := true
    language_code := language
    punctuate := true
    format_text := true
    dual_channel := false
    disfluencies := decide (transcriptionSettings.accuracySpeed = "accurate") }

/-- Settings with a blank (after trimming) language and accurate mode. -/
def settingsBlankLanguage : ObsidianAIPluginSettings :=
  { DEFAULT_SETTINGS with transcriptionSettings := ⟨"  ", "accurate"⟩ }

/-! ### C6: idempotent back-link and summary appends (src/recording.ts:264) -/

/-- Matches the regex `###` followed by mandatory whitespace and `Recording`
at the head of the character list. -/
def recordingHeadingAt (l : List Char) : Bool :=
  "###".data.isPrefixOf l
    && !((l.drop 3).takeWhile isJsSpace).isEmpty
    && "Recording".data.isPrefixOf ((l.drop 3).dropWhile isJsSpace)

/-- JavaScript `content.match` of the Recording-heading regex: does the
pattern match at any position. -/
def hasRecordingHeading : List Char → Bool
  | [] => false
  | c :: rest =>
    if recordingHeadingAt (c :: rest) then true else hasRecordingHeading rest

/-- Embeds the content transformation of `appendLinkToParent`
(src/recording.ts:264): no-op when the link is already present, otherwise
open a `### Recording` section if the heading regex does not match, and
append the bulleted link. -/
def appendLinkToParentContent (content : String) (transcriptionBasename : String) : String :=
  if jsIncludes content ("[[" ++ transcriptionBasename ++ "]]") then content
  else
    (if !hasRecordingHeading content.data then content ++ "\n\n### Recording\n\n"
     else content ++ "\n")
      ++ "- " ++ ("[[" ++ transcriptionBasename ++ "]]") ++ "\n"

/-- Embeds the content transformation of `appendMeetingSummary`
(src/recording.ts:290): no-op when the heading is already present, otherwise
append the summary section. -/
def appendMeetingSummarySection (content : String) (summary : String) : String :=
  if jsIncludes content "## AI Meeting Summary" then content
  else content ++ "\n\n## AI Meeting Summary\n\n" ++ summary ++ "\n"

/-! ### C10: the meeting-summary client (src/summary.ts:64) -/

/-- Result of one `generateMeetingSummary` call: the returned value and the
API key the request was authorized with (`none` when no request was made). -/
structure SummaryCallOutcome where
  value : Option String
  usedKey : Option String

/-- Embeds `generateMeetingSummary` (src/summary.ts:64).  The network is an
oracle: `Except.error` is a transport or service failure (the catch branch),
`Except.ok content` is a successful response carrying the optional
`choices[0].message.content` field.  The effective key is
`openAiApiKey || openAIKey` with JS falsiness, and a falsy effective key
returns null before any request. -/
def generateMeetingSummary (transcript : String) (settings : ObsidianAIPluginSettings)
    (hasTimestamps : Bool) (net : Except Unit (Option String)) : SummaryCallOutcome :=
  if !settings.autoSummarise then ⟨none, none⟩
  else
    let apiKey := jsOr settings.openAiApiKey (settings.openAIKey.getD "")
    if apiKey = "" then ⟨none, none⟩
    else
      match net with
      | Except.error _ => ⟨none, some apiKey⟩
      | Except.ok content =>
        match content with
        | some c => ⟨if jsTrim c = "" then none else some (jsTrim c), some apiKey⟩
        | none => ⟨none, some apiKey⟩

/-- Settings whose only configured key is the legacy one. -/
def settingsLegacyKey : ObsidianAIPluginSettings :=
  { DEFAULT_SETTINGS with openAIKey := some "legacy" }

/-- Settings whose primary key is configured (legacy left at default). -/
def settingsPrimaryKey : ObsidianAIPluginSettings :=
  { DEFAULT_SETTINGS with openAiApiKey := "primary" }

/-! ### The recording session state machine (src/recording.ts:26) -/

/-- A JS `Date`: the epoch value returned by `getTime` together with the
calendar components the filename formatters read.  The components are not
derived from the epoch value here; both are supplied by the host clock. -/
structure DateT where
  epochMs : Int
  year : Nat
  month : Nat
  day : Nat
  hour : Nat
  minute : Nat
  second : Nat

/-- An Obsidian `TFile` as consumed by the plugin: its vault path and its
basename (file name without extension). -/
structure TFileT where
  path : String
  basename : String

/-- Embeds the `ActiveRecordingSession` interface (src/recording.ts:6); the
optional numeric fields keep their optionality. -/
structure ActiveRecordingSession where
  parentFile : Option TFileT
  startedAt : DateT
  audioFilePath : Option String
  isPaused : Bool
  pauseStartedAt : Option Int
  totalPausedMs : Option Int

/-- The mutable fields of `RecordingManager` that the lifecycle methods
consult: the nullable session slot and whether a `MediaRecorder` is held. -/
structure ManagerState where
  session : Option ActiveRecordingSession
  hasRecorder : Bool

/-- Manager state before any recording. -/
def initialManagerState : ManagerState :=
  ⟨none, false⟩

/-- JavaScript `x || 0` on an optional number (undefined and 0 both give 0). -/
def jsNumOrZero (o : Option Int) : Int :=
  o.getD 0

/-- JavaScript truthiness of an optional number: present and non-zero. -/
def optTruthyInt (o : Option Int) : Bool :=
  match o with
  | some t => decide (t ≠ 0)
  | none => false

/-- Embeds `startRecording` (src/recording.ts:44): rejected with a notice if
a session exists; otherwise, when the microphone is granted, a fresh session
with `totalPausedMs` 0 and `isPaused` false is installed, and on denial the
stream is cleaned up with no session created. -/
def startRecording (st : ManagerState) (parent : Option TFileT) (micOk : Bool)
    (startedAt : DateT) : ManagerState × List String :=
  match st.session with
  | some _ => (st, ["Recording already in progress."])
  | none =>
    if micOk then
      ({ session :=
           some { parentFile := parent, startedAt := startedAt, audioFilePath := none,
                  isPaused := false, pauseStartedAt := none, totalPausedMs := some 0 },
         hasRecorder := true },
       ["Recording started. Click the mic again or run stop command to finish."])
    else
      ({ session := none, hasRecorder := false },
       ["Unable to access microphone. Please check permissions."])

/-- Embeds `pauseRecording` (src/recording.ts:139). -/
def pauseRecording (st : ManagerState) (now : Int) : ManagerState :=
  if !st.hasRecorder then st
  else
    match st.session with
    | none => st
    | some s =>
      if s.isPaused then st
      else { st with session := some { s with isPaused := true, pauseStartedAt := some now } }

/-- Embeds `resumeRecording` (src/recording.ts:153): the paused duration is
added only when `pauseStartedAt` is truthy (JS: present and non-zero), and
`pauseStartedAt` is always cleared. -/
def resumeRecording (st : ManagerState) (now : Int) : ManagerState :=
  if !st.hasRecorder then st
  else
    match st.session with
    | none => st
    | some s =>
      if !s.isPaused then st
      else
        let totalPausedMs :=
          match s.pauseStartedAt with
          | some t =>
            if t ≠ 0 then some (jsNumOrZero s.totalPausedMs + (now - t))
            else s.totalPausedMs
          | none => s.totalPausedMs
        { st with
            session :=
              some { s with totalPausedMs := totalPausedMs, pauseStartedAt := none,
                            isPaused := false } }

/-- Embeds `getElapsedRecordingMs` (src/recording.ts:173). -/
def getElapsedRecordingMs (st : ManagerState) (now : Int) : Int :=
  match st.session with
  | none => 0
  | some s =>
    let started := s.startedAt.epochMs
    let pausedAlready := jsNumOrZero s.totalPausedMs
    let currentPause :=
      if s.isPaused && optTruthyInt s.pauseStartedAt then now - s.pauseStartedAt.getD 0
      else 0
    max 0 (now - started - pausedAlready - currentPause)

/-- One user-visible lifecycle operation with the wall-clock values the host
would supply. -/
inductive RecOp where
  | start (parent : Option TFileT) (micOk : Bool) (startedAt : DateT)
  | pause (now : Int)
  | resume (now : Int)

/-- Apply one lifecycle operation to the manager state. -/
def applyOp (st : ManagerState) : RecOp → ManagerState
  | RecOp.start parent micOk d => (startRecording st parent micOk d).1
  | RecOp.pause now => pauseRecording st now
  | RecOp.resume now => resumeRecording st now

/-- Apply a sequence of lifecycle operations starting from `st`. -/
def applyOps (st : ManagerState) (ops : List RecOp) : ManagerState :=
  ops.foldl applyOp st

/-- The paused-session invariant of the data model. -/
def pausedImpliesMarked (st : ManagerState) : Prop :=
  ∀ s, st.session = some s → s.isPaused = true → s.pauseStartedAt.isSome = true

/-- A date value used by the concrete lifecycle scenarios. -/
def epoch0 : DateT :=
  ⟨1000, 2024, 0, 1, 0, 0, 0⟩

/-- The session produced by starting at `epoch0` and pausing at time 5. -/
def pausedSession5 : ActiveRecordingSession :=
  ⟨none, epoch0, none, true, some 5, some 0⟩

/-! ### The stop-recording pipeline (src/recording.ts:73)

The vault collaborator is a list of files (path and content) plus a list of
folders; network calls are resolved against a `StopEnv` oracle.  The
outcome records the final manager state, the vault, the notices shown, the
number of requests made against the transcription service, and the paths of
the artifacts that were created. -/

/-- Host `normalizePath`: modelled as the identity on already-normalised
vault paths. -/
def normalizePath (p : String) : String :=
  p

/-- The host document store: files with their content, and folders. -/
structure Vault where
  files : List (String × String)
  folders : List String

/-- All existing paths of the vault (`getAbstractFileByPath` is non-null
exactly on these). -/
def vaultPaths (v : Vault) : List String :=
  v.files.map Prod.fst ++ v.folders

/-- Embeds `ensureFolderExists` (src/recording.ts:583). -/
def ensureFolderExists (v : Vault) (folder : String) : Vault :=
  if normalizePath folder ∈ vaultPaths v then v
  else { v with folders := v.folders ++ [normalizePath folder] }

/-- Host `vault.read`: the content of the file at `path`. -/
def vaultRead (v : Vault) (path : String) : String :=
  ((v.files.find? (fun p => decide (p.1 = path))).map Prod.snd).getD ""

/-- Host `vault.modify`: replace the content of the file at `path`. -/
def vaultModify (v : Vault) (path content : String) : Vault :=
  { v with files := v.files.map (fun p => if p.1 = path then (p.1, content) else p) }

/-- Embeds `basename` (src/recording.ts:643): the last slash-separated
segment. -/
def basename (path : String) : String :=
  (jsSplitChar '/' path).getLastD ""

/-- Host `TFile.basename`: the file name without its extension. -/
def fileBasename (path : String) : String :=
  let nm := basename path
  let parts := jsSplitChar '.' nm
  if parts.length ≤ 1 then nm else jsJoin "." parts.dropLast

/-- Embeds `formatDateForFilename` (src/recording.ts:619); `month` is the
zero-based JS `getMonth` value, incremented as in the source. -/
def formatDateForFilename (d : DateT) : String :=
  toString d.year ++ "-" ++ jsPadStart (toString (d.month + 1)) 2 '0'
    ++ "-" ++ jsPadStart (toString d.day) 2 '0'
    ++ "_" ++ jsPadStart (toString d.hour) 2 '0'
    ++ "-" ++ jsPadStart (toString d.minute) 2 '0'
    ++ "-" ++ jsPadStart (toString d.second) 2 '0'

/-- Embeds `formatReadableDate` (src/recording.ts:630). -/
def formatReadableDate (d : DateT) : String :=
  toString d.year ++ "-" ++ jsPadStart (toString (d.month + 1)) 2 '0'
    ++ "-" ++ jsPadStart (toString d.day) 2 '0'
    ++ " " ++ jsPadStart (toString d.hour) 2 '0'
    ++ "." ++ jsPadStart (toString d.minute) 2 '0'

/-- The characters stripped by `sanitizeFileName` (src/recording.ts:639). -/
def isStrippedFileChar (c : Char) : Bool :=
  c == '\\' || c == '/' || c == ':' || c == '"' || c == '*' || c == '?'
    || c == '<' || c == '>' || c == '|'

/-- Embeds `sanitizeFileName` (src/recording.ts:639): remove the stripped
character set, then trim. -/
def sanitizeFileName (name : String) : String :=
  jsTrim (String.mk (name.data.filter (fun c => !isStrippedFileChar c)))

/-- Host `Date.prototype.toISOString`, modelled from its documented format
using the supplied calendar components. -/
def toISOStringModel (d : DateT) : String :=
  toString d.year ++ "-" ++ jsPadStart (toString (d.month + 1)) 2 '0'
    ++ "-" ++ jsPadStart (toString d.day) 2 '0'
    ++ "T" ++ jsPadStart (toString d.hour) 2 '0'
    ++ ":" ++ jsPadStart (toString d.minute) 2 '0'
    ++ ":" ++ jsPadStart (toString d.second) 2 '0' ++ ".000Z"

/-- Embeds `buildFrontmatter` (src/recording.ts:566). -/
def buildFrontmatter (parentFile : Option TFileT) (audioFilePath : Option String)
    (startedAt : DateT) : String :=
  let lines :=
    ["---", "type: meeting-transcript"]
      ++ (match parentFile with
          | some f => ["source_note: [[" ++ f.basename ++ "]]"]
          | none => [])
      ++ (match audioFilePath with
          | some p => ["audio_file: [[" ++ basename p ++ "]]"]
          | none => [])
      ++ ["created: " ++ toISOStringModel startedAt, "---"]
  jsJoin "\n" lines

/-- The oracle resolving the effects of one `stopRecording` run: whether the
binary write succeeds, the captured audio bytes, the three service responses
and the summary-service response. -/
structure StopEnv where
  saveAudioOk : Bool
  audioData : String
  uploadResponse : Except Unit (Option String)
  submitResponse : Except Unit (Option String)
  pollResponses : Nat → PollData
  summaryNet : Except Unit (Option String)

/-- Embeds `saveAudioFile` (src/recording.ts:200): the folder is created on
demand, the path is made unique, and the binary write either succeeds or
throws (oracle `saveAudioOk`). -/
def saveAudioFile (v : Vault) (settings : ObsidianAIPluginSettings) (startedAt : DateT)
    (env : StopEnv) : Vault × Except Unit String :=
  let folder := normalizePath (jsOr settings.audioFolderPath "Audio")
  let v1 := ensureFolderExists v folder
  let fileName := formatDateForFilename startedAt ++ "_meeting-audio.webm"
  let path := uniquePath (vaultPaths v1) (normalizePath (folder ++ "/" ++ fileName))
  if env.saveAudioOk then
    ({ v1 with files := v1.files ++ [(path, env.audioData)] }, Except.ok path)
  else
    (v1, Except.error ())

/-- Embeds `uploadAudio` (src/recording.ts:298) against the oracle: a
transport failure throws, a response without `upload_url` throws the source
message, otherwise the reference is returned. -/
def uploadAudio (env : StopEnv) : Except String String :=
  match env.uploadResponse with
  | Except.error _ => Except.error "Upload request failed."
  | Except.ok none => Except.error "AssemblyAI did not return an upload URL."
  | Except.ok (some url) => Except.ok url

/-- Embeds `requestTranscript` (src/recording.ts:315) against the oracle:
the body of the POST is `requestTranscriptBody`; a transport failure throws,
a response without `id` throws the source message. -/
def requestTranscript (uploadUrl : String) (settings : ObsidianAIPluginSettings)
    (env : StopEnv) : Except String String :=
  let _body := requestTranscriptBody uploadUrl settings
  match env.submitResponse with
  | Except.error _ => Except.error "Transcript request failed."
  | Except.ok none => Except.error "AssemblyAI did not return a transcript id."
  | Except.ok (some transcriptId) => Except.ok transcriptId

/-- Embeds `transcribeAudio` (src/recording.ts:215): a missing key notices
and skips before any request; otherwise upload, submit and poll run in
sequence inside one try/catch whose handler notices the failure.  The middle
component counts the requests made against the transcription service. -/
def transcribeAudio (settings : ObsidianAIPluginSettings) (env : StopEnv) :
    Option TranscriptionResult × Nat × List String :=
  if settings.assemblyAIKey = "" then
    (none, 0, ["AssemblyAI API key missing; skipping transcription."])
  else
    match uploadAudio env with
    | Except.error e => (none, 1, ["Transcription failed: " ++ e])
    | Except.ok uploadUrl =>
      match requestTranscript uploadUrl settings env with
      | Except.error e => (none, 2, ["Transcription failed: " ++ e])
      | Except.ok _transcriptId =>
        match waitForTranscript env.pollResponses with
        | (Except.error e, polls) => (none, 2 + polls, ["Transcription failed: " ++ e])
        | (Except.ok t, polls) => (some t, 2 + polls, [])

/-- Embeds `createTranscriptionNote` (src/recording.ts:238). -/
def createTranscriptionNote (v : Vault) (settings : ObsidianAIPluginSettings)
    (transcript : TranscriptionResult) (parentFile : Option TFileT)
    (audioFilePath : Option String) (startedAt : DateT) : Vault × TFileT :=
  let folder := normalizePath (jsOr settings.transcriptionFolderPath "Transcriptions")
  let v1 := ensureFolderExists v folder
  let parentName := match parentFile with
    | some f => f.basename
    | none => "Meeting"
  let filename := parentName ++ " - Meeting Transcript " ++ formatReadableDate startedAt ++ ".md"
  let sanitizedName := sanitizeFileName filename
  let notePath := uniquePath (vaultPaths v1) (normalizePath (folder ++ "/" ++ sanitizedName))
  let formattedTranscript := formatTranscript transcript
  let frontmatter := buildFrontmatter parentFile audioFilePath startedAt
  let audioLink := match audioFilePath with
    | some p => "**Audio:** [[" ++ basename p ++ "]]\n\n"
    | none => ""
  let content := frontmatter ++ "\n" ++ audioLink ++ "## Transcript\n\n" ++ formattedTranscript
  ({ v1 with files := v1.files ++ [(notePath, content)] }, ⟨notePath, fileBasename notePath⟩)

/-- Embeds `appendLinkToParent` (src/recording.ts:264) at the vault level. -/
def appendLinkToParentVault (v : Vault) (parentPath : String) (noteBasename : String) : Vault :=
  vaultModify v parentPath (appendLinkToParentContent (vaultRead v parentPath) noteBasename)

/-- Embeds `appendMeetingSummary` (src/recording.ts:283) at the vault level:
generate the summary (oracle-resolved), do nothing when it is null, and
otherwise append the summary section guarded by the heading check. -/
def appendMeetingSummaryVault (v : Vault) (settings : ObsidianAIPluginSettings)
    (notePath : String) (transcript : TranscriptionResult) (env : StopEnv) : Vault :=
  let transcriptText := formatTranscript transcript
  let summary := generateMeetingSummary transcriptText settings
    (decide (0 < transcript.utterances.length)) env.summaryNet
  match summary.value with
  | none => v
  | some sm => vaultModify v notePath (appendMeetingSummarySection (vaultRead v notePath) sm)

/-- Everything one `stopRecording` run produces. -/
structure StopOutcome where
  state : ManagerState
  vault : Vault
  notices : List String
  transcriptionNetworkCalls : Nat
  audioFilePath : Option String
  notePath : Option String

/-- Embeds `stopRecording` (src/recording.ts:73): without a session and a
recorder it only notices; otherwise the session slot is freed immediately,
the audio is saved best-effort, transcription runs (or is skipped), and only
a successful transcription leads to note creation, back-linking and the
summary append. -/
def stopRecording (st : ManagerState) (v : Vault) (settings : ObsidianAIPluginSettings)
    (env : StopEnv) : StopOutcome :=
  match st.session, st.hasRecorder with
  | some session, true =>
    let afterSave := saveAudioFile v settings session.startedAt env
    let v1 := afterSave.1
    let audioFilePath := match afterSave.2 with
      | Except.ok p => some p
      | Except.error _ => none
    let saveNotices := match afterSave.2 with
      | Except.ok _ => ([] : List String)
      | Except.error _ => ["Could not save audio file; continuing with transcription."]
    let tr := transcribeAudio settings env
    match tr.1 with
    | none =>
      { state := ⟨none, false⟩, vault := v1,
        notices := saveNotices ++ tr.2.2
          ++ ["Transcription failed or skipped. Audio saved if possible."],
        transcriptionNetworkCalls := tr.2.1, audioFilePath := audioFilePath,
        notePath := none }
    | some transcription =>
      let created := createTranscriptionNote v1 settings transcription session.parentFile
        audioFilePath session.startedAt
      let v2 := created.1
      let noteFile := created.2
      let v3 := match session.parentFile with
        | some parent => appendLinkToParentVault v2 parent.path noteFile.basename
        | none => v2
      let v4 := appendMeetingSummaryVault v3 settings noteFile.path transcription env
      { state := ⟨none, false⟩, vault := v4,
        notices := saveNotices ++ tr.2.2 ++ ["Recording complete. Transcription note created."],
        transcriptionNetworkCalls := tr.2.1, audioFilePath := audioFilePath,
        notePath := some noteFile.path }
  | _, _ =>
    { state := st, vault := v, notices := ["No recording is currently running."],
      transcriptionNetworkCalls := 0, audioFilePath := none, notePath := none }

/-- The unique vault path `saveAudioFile` writes the audio artifact to. -/
def audioSavePath (v : Vault) (settings : ObsidianAIPluginSettings) (startedAt : DateT) : String :=
  uniquePath
    (vaultPaths (ensureFolderExists v (normalizePath (jsOr settings.audioFolderPath "Audio"))))
    (normalizePath (normalizePath (jsOr settings.audioFolderPath "Audio") ++ "/"
      ++ (formatDateForFilename startedAt ++ "_meeting-audio.webm")))

/-- A concrete oracle for the missing-key scenario: the binary write
succeeds and no service is reachable. -/
def stopEnvOkSave : StopEnv :=
  ⟨true, "AUDIO-BYTES", Except.error (), Except.error (), pollAlwaysProcessing, Except.error ()⟩

/-! ### C1: unique-path generation -/

/-- C1, counterexample: with both `a.md` and `a-1.md` present, `uniquePath`
does not return `a-2.md` as the claim states. -/
theorem uniquePath_double_collision_ne_claim :
    uniquePath ["a.md", "a-1.md"] "a.md" ≠ "a-2.md" := by
  decide

/-- C1, amended: a single collision yields `a-1.md`, but when both `a.md` and
`a-1.md` exist the counter suffix is appended to the base of the previously
tried candidate, yielding `a-1-2.md` (suffixes compound instead of being
replaced). -/
theorem uniquePath_collision_results :
    uniquePath ["a.md"] "a.md" = "a-1.md"
      ∧ uniquePath ["a.md", "a-1.md"] "a.md" = "a-1-2.md" := by
  decide

/-! ### C3: concrete formatting scenario -/

/-- C3: formatting the utterance list `start 0 / speaker A / Hello`,
`start 5000 / speaker B / Hi`, `start 9000 / speaker A / empty text` yields
exactly the two-line string with zero-padded `HH:MM:SS` prefixes; the
empty-text utterance is dropped and lines are joined by one newline. -/
theorem formatTranscript_example (txt : String) :
    formatTranscript
        ⟨txt, [⟨some 0, some "A", some "Hello"⟩, ⟨some 5000, some "B", some "Hi"⟩,
               ⟨some 9000, some "A", some ""⟩]⟩
      = "[00:00:00] **Speaker 1:** Hello\n[00:00:05] **Speaker 2:** Hi" := by
  rfl

/-- The empty-string half of the Boolean filter at work: a truthy
whitespace-only utterance with neither timestamp nor speaker renders to the
empty string and is dropped rather than emitted as a blank line. -/
theorem formatTranscript_drops_blank_lines :
    formatTranscript ⟨"", [⟨none, none, some " "⟩, ⟨some 0, some "A", some "hi"⟩]⟩
      = "[00:00:00] **Speaker 1:** hi"
    ∧ formatTranscriptSpec ⟨"", [⟨none, none, some " "⟩, ⟨some 0, some "A", some "hi"⟩]⟩
      = "[00:00:00] **Speaker 1:** hi" := by
  exact ⟨rfl, rfl⟩

theorem waitForTranscriptAux_timeout (resp : Nat → PollData) :
    ∀ fuel attempt, (∀ i, i < fuel → pollOutcome (resp (attempt + i)) = none) →
      waitForTranscriptAux resp attempt fuel
        = (Except.error "Transcription timed out.", attempt + fuel)
  | 0, attempt, _ => by simp [waitForTranscriptAux]
  | fuel + 1, attempt, h => by
    have h0 : pollOutcome (resp attempt) = none := by
      simpa using h 0 (Nat.succ_pos fuel)
    have ih := waitForTranscriptAux_timeout resp fuel (attempt + 1) (fun i hi => by
      have := h (i + 1) (by omega)
      simpa [Nat.add_assoc, Nat.add_comm 1 i] using this)
    simp only [waitForTranscriptAux, h0, ih, Prod.mk.injEq]
    exact ⟨trivial, by omega⟩

theorem waitForTranscriptAux_terminal (resp : Nat → PollData)
    (r : Except String TranscriptionResult) :
    ∀ k fuel attempt, k < fuel → (∀ i, i < k → pollOutcome (resp (attempt + i)) = none) →
      pollOutcome (resp (attempt + k)) = some r →
      waitForTranscriptAux resp attempt fuel = (r, attempt + k + 1)
  | 0, fuel, attempt, hk, _, hr => by
    obtain ⟨fuel, rfl⟩ : ∃ f, fuel = f + 1 := ⟨fuel - 1, by omega⟩
    simp only [Nat.add_zero] at hr
    simp [waitForTranscriptAux, hr]
  | k + 1, fuel, attempt, hk, hnone, hr => by
    obtain ⟨fuel, rfl⟩ : ∃ f, fuel = f + 1 := ⟨fuel - 1, by omega⟩
    have h0 : pollOutcome (resp attempt) = none := by
      simpa using hnone 0 (Nat.succ_pos k)
    have ih := waitForTranscriptAux_terminal resp r k fuel (attempt + 1) (by omega)
      (fun i hi => by
        have := hnone (i + 1) (by omega)
        simpa [Nat.add_assoc, Nat.add_comm 1 i] using this)
      (by
        have : attempt + 1 + k = attempt + (k + 1) := by omega
        rw [this]
        exact hr)
    simp only [waitForTranscriptAux, h0, ih, Prod.mk.injEq]
    exact ⟨trivial, by omega⟩

/-! ### C2: termination trichotomy of the polling loop -/

/-- C2: for every sequence of poll responses the loop has exactly one of
three outcomes.  No terminal status within the 40-attempt budget fails with
the timeout error after exactly 40 polls; an `error` status at attempt `k`
(all earlier attempts non-terminal) fails with the service-provided message
after exactly `k + 1` polls, i.e. it stops immediately; a `completed` status
at attempt `k` returns the result after exactly `k + 1` polls. -/
theorem waitForTranscript_trichotomy :
    (∀ resp : Nat → PollData,
        (∀ i, i < 40 → pollOutcome (resp i) = none) →
        waitForTranscript resp = (Except.error "Transcription timed out.", 40))
    ∧ (∀ resp : Nat → PollData, ∀ k, k < 40 →
        (∀ i, i < k → pollOutcome (resp i) = none) →
        (resp k).status = "error" →
        waitForTranscript resp
          = (Except.error (jsOrOpt (resp k).error "AssemblyAI returned an error."), k + 1))
    ∧ (∀ resp : Nat → PollData, ∀ k, k < 40 →
        (∀ i, i < k → pollOutcome (resp i) = none) →
        (resp k).status = "completed" →
        waitForTranscript resp
          = (Except.ok ⟨(resp k).text.getD "", (resp k).utterances.getD []⟩, k + 1)) := by
  refine ⟨?_, ?_, ?_⟩
  · intro resp h
    simpa using waitForTranscriptAux_timeout resp 40 0 (fun i hi => by simpa using h i hi)
  · intro resp k hk hnone hstatus
    have hpoll : pollOutcome (resp k)
        = some (Except.error (jsOrOpt (resp k).error "AssemblyAI returned an error.")) := by
      rw [pollOutcome, hstatus]
      rw [if_neg (by decide), if_pos rfl]
    simpa using waitForTranscriptAux_terminal resp _ k 40 0 hk
      (fun i hi => by simpa using hnone i hi) (by simpa using hpoll)
  · intro resp k hk hnone hstatus
    have hpoll : pollOutcome (resp k)
        = some (Except.ok ⟨(resp k).text.getD "", (resp k).utterances.getD []⟩) := by
      rw [pollOutcome, hstatus, if_pos rfl]
    simpa using waitForTranscriptAux_terminal resp _ k 40 0 hk
      (fun i hi => by simpa using hnone i hi) (by simpa using hpoll)

/-- C2 witness: the trichotomy evaluated on three concrete poll sequences. -/
theorem waitForTranscript_trichotomy_witness :
    waitForTranscript pollAlwaysProcessing = (Except.error "Transcription timed out.", 40)
    ∧ waitForTranscript pollErrorAt3 = (Except.error "boom", 4)
    ∧ waitForTranscript pollCompletedAt2 = (Except.ok ⟨"hi there", []⟩, 3) := by
  refine ⟨?_, ?_, ?_⟩
  · exact waitForTranscript_trichotomy.1 pollAlwaysProcessing (fun i _ => rfl)
  · have h := waitForTranscript_trichotomy.2.1 pollErrorAt3 3 (by omega)
      (fun i hi => by
        have hne : i ≠ 3 := by omega
        simp [pollErrorAt3, hne, pollOutcome])
      (by rfl)
    simpa [pollErrorAt3, jsOrOpt] using h
  · have h := waitForTranscript_trichotomy.2.2 pollCompletedAt2 2 (by omega)
      (fun i hi => by
        have hne : i ≠ 2 := by omega
        simp [pollCompletedAt2, hne, pollOutcome])
      (by rfl)
    simpa [pollCompletedAt2] using h

theorem idxOf1_append_of_mem (s : String) :
    ∀ l t : List String, s ∈ l → idxOf1 s (l ++ t) = idxOf1 s l
  | [], _, h => absurd h (List.not_mem_nil s)
  | a :: rest, t, h => by
    by_cases ha : a = s
    · simp [idxOf1, ha]
    · have hmem : s ∈ rest := by
        rcases List.mem_cons.mp h with h1 | h1
        · exact absurd h1.symm ha
        · exact h1
      simp [idxOf1, ha, idxOf1_append_of_mem s rest t hmem]

theorem idxOf1_append_self (s : String) :
    ∀ l : List String, s ∉ l → idxOf1 s (l ++ [s]) = l.length
  | [], _ => by simp [idxOf1]
  | a :: rest, h => by
    have ha : ¬(a = s) := fun hc => h (by simp [hc])
    have hrest : s ∉ rest := fun hc => h (List.mem_cons_of_mem a hc)
    simp [idxOf1, ha, idxOf1_append_self s rest hrest]

theorem numberedFrom_append (s : String) :
    ∀ (l : List String) (k : Nat),
      numberedFrom k (l ++ [s]) = numberedFrom k l ++ [(s, k + l.length)]
  | [], k => by simp [numberedFrom]
  | a :: rest, k => by
    have ih := numberedFrom_append s rest (k + 1)
    have harith : k + 1 + rest.length = k + (rest.length + 1) := by omega
    rw [List.cons_append]
    rw [show numberedFrom k (a :: (rest ++ [s]))
          = (a, k) :: numberedFrom (k + 1) (rest ++ [s]) from rfl]
    rw [ih, harith]
    rfl

theorem mapFind_numberedFrom (s : String) :
    ∀ (l : List String) (k : Nat),
      mapFind (numberedFrom k l) s = if s ∈ l then some (k + idxOf1 s l) else none
  | [], k => by simp [numberedFrom, mapFind]
  | a :: rest, k => by
    by_cases ha : a = s
    · subst ha
      simp [numberedFrom, mapFind, idxOf1]
    · have hsa : ¬(s = a) := fun hc => ha hc.symm
      simp only [numberedFrom, mapFind, ha, if_false, mapFind_numberedFrom s rest (k + 1),
        List.mem_cons, hsa, false_or, idxOf1]
      by_cases hm : s ∈ rest
      · simp only [hm, if_true]
        exact congrArg some (by omega)
      · simp [hm]

theorem renderedSpeakersFrom_prefix :
    ∀ (us : List Utterance) (seen : List String),
      ∃ t, renderedSpeakersFrom us seen = seen ++ t
  | [], seen => ⟨[], by simp [renderedSpeakersFrom]⟩
  | u :: rest, seen => by
    by_cases hft : strFalsy u.text = true
    · obtain ⟨t, ht⟩ := renderedSpeakersFrom_prefix rest seen
      exact ⟨t, by simp [renderedSpeakersFrom, hft, ht]⟩
    · cases hsp : u.speaker with
      | none =>
        obtain ⟨t, ht⟩ := renderedSpeakersFrom_prefix rest seen
        exact ⟨t, by simp [renderedSpeakersFrom, hft, hsp, ht]⟩
      | some sp =>
        by_cases hsp0 : sp = ""
        · obtain ⟨t, ht⟩ := renderedSpeakersFrom_prefix rest seen
          exact ⟨t, by simp [renderedSpeakersFrom, hft, hsp, hsp0, ht]⟩
        · by_cases hmem : sp ∈ seen
          · obtain ⟨t, ht⟩ := renderedSpeakersFrom_prefix rest seen
            exact ⟨t, by simp [renderedSpeakersFrom, hft, hsp, hsp0, hmem, ht]⟩
          · obtain ⟨t, ht⟩ := renderedSpeakersFrom_prefix rest (seen ++ [sp])
            exact ⟨[sp] ++ t, by
              simp only [renderedSpeakersFrom, hft, hsp, hsp0, hmem, if_false, ite_false]
              simpa [List.append_assoc] using ht⟩

theorem formatUtterancesAux_spec :
    ∀ (us : List Utterance) (seen : List String),
      formatUtterancesAux us (numberedFrom 1 seen) (seen.length + 1)
        = us.filterMap (specLine (renderedSpeakersFrom us seen))
  | [], seen => by simp [formatUtterancesAux]
  | u :: rest, seen => by
    by_cases hft : strFalsy u.text = true
    · simp [formatUtterancesAux, hft, renderedSpeakersFrom, specLine,
        formatUtterancesAux_spec rest seen]
    · cases hsp : u.speaker with
      | none =>
        simp [formatUtterancesAux, hft, hsp, renderedSpeakersFrom, specLine,
          formatUtterancesAux_spec rest seen]
      | some sp =>
        by_cases hsp0 : sp = ""
        · simp [formatUtterancesAux, hft, hsp, hsp0, renderedSpeakersFrom, specLine,
            formatUtterancesAux_spec rest seen]
        · by_cases hmem : sp ∈ seen
          · -- speaker already in the map: the stored number matches the
            -- global first-appearance position because the final order
            -- extends `seen`
            have hfind : mapFind (numberedFrom 1 seen) sp = some (1 + idxOf1 sp seen) := by
              simp [mapFind_numberedFrom, hmem]
            have hord : renderedSpeakersFrom (u :: rest) seen
                = renderedSpeakersFrom rest seen := by
              simp [renderedSpeakersFrom, hft, hsp, hsp0, hmem]
            obtain ⟨t, ht⟩ := renderedSpeakersFrom_prefix rest seen
            have hidx : idxOf1 sp (renderedSpeakersFrom rest seen) = idxOf1 sp seen := by
              rw [ht]
              exact idxOf1_append_of_mem sp seen t hmem
            simp only [formatUtterancesAux, hft, Bool.false_eq_true, if_false, hsp, hsp0,
              ite_false, hfind, Option.isSome_some, if_true, Option.getD_some,
              List.filterMap_cons, hord]
            rw [specLine]
            simp only [hft, Bool.false_eq_true, if_false, hsp, hsp0, ite_false, hidx]
            rw [formatUtterancesAux_spec rest seen]
            have harith : 1 + idxOf1 sp seen = idxOf1 sp seen + 1 := by omega
            rw [harith]
            simp [List.append_assoc]
          · -- new speaker: it is appended to the map with the next number,
            -- which is exactly its position in the extended order
            have hfind : mapFind (numberedFrom 1 seen) sp = none := by
              simp [mapFind_numberedFrom, hmem]
            have hmap : numberedFrom 1 seen ++ [(sp, seen.length + 1)]
                = numberedFrom 1 (seen ++ [sp]) := by
              rw [numberedFrom_append]
              simp [Nat.add_comm]
            have hord : renderedSpeakersFrom (u :: rest) seen
                = renderedSpeakersFrom rest (seen ++ [sp]) := by
              simp [renderedSpeakersFrom, hft, hsp, hsp0, hmem]
            obtain ⟨t, ht⟩ := renderedSpeakersFrom_prefix rest (seen ++ [sp])
            have hidx : idxOf1 sp (renderedSpeakersFrom rest (seen ++ [sp]))
                = seen.length := by
              rw [ht]
              rw [idxOf1_append_of_mem sp (seen ++ [sp]) t (by simp)]
              exact idxOf1_append_self sp seen hmem
            have hfind2 : mapFind (numberedFrom 1 (seen ++ [sp])) sp
                = some (seen.length + 1) := by
              rw [mapFind_numberedFrom]
              rw [if_pos (by simp)]
              rw [idxOf1_append_self sp seen hmem]
              exact congrArg some (by omega)
            have hlen : (seen ++ [sp]).length = seen.length + 1 := by simp
            simp only [formatUtterancesAux, hft, Bool.false_eq_true, if_false, hsp, hsp0,
              ite_false, hfind, Option.isSome_none, Bool.false_eq_true, if_false,
              List.filterMap_cons, hord, hmap, hfind2, Option.getD_some]
            rw [specLine]
            simp only [hft, Bool.false_eq_true, if_false, hsp, hsp0, ite_false, hidx]
            have hrec := formatUtterancesAux_spec rest (seen ++ [sp])
            rw [hlen] at hrec
            rw [hrec]
            simp [List.append_assoc]

/-- C4: for every transcription result with a non-empty utterance list the
embedded formatter agrees with the specification-side formatter, whose
speaker numbers are one plus the position of the raw label in the global
first-appearance order (not sorted, not derived from the label value); and
formatting is pure, so repeating it yields the identical string. -/
theorem formatTranscript_firstAppearance (result : TranscriptionResult)
    (h : result.utterances ≠ []) :
    formatTranscript result = formatTranscriptSpec result
      ∧ formatTranscript result = formatTranscript result := by
  refine ⟨?_, rfl⟩
  have hlen : 0 < result.utterances.length := List.length_pos.mpr h
  rw [formatTranscript, formatTranscriptSpec, if_pos hlen, if_pos hlen]
  have h2 := formatUtterancesAux_spec result.utterances []
  simp only [numberedFrom, List.length_nil, Nat.zero_add] at h2
  rw [h2]
  rfl

/-- C4 witness: the refinement applied to a concrete three-utterance result
whose speakers first appear in the order `B`, `A`. -/
theorem formatTranscript_firstAppearance_witness :
    formatTranscript
        ⟨"", [⟨some 0, some "B", some "x"⟩, ⟨none, some "A", some "y"⟩,
              ⟨none, some "B", some "z"⟩]⟩
      = formatTranscriptSpec
        ⟨"", [⟨some 0, some "B", some "x"⟩, ⟨none, some "A", some "y"⟩,
              ⟨none, some "B", some "z"⟩]⟩ := by
  exact (formatTranscript_firstAppearance _ (List.cons_ne_nil _ _)).1

/-- C7: the submission body always has speaker_labels, punctuate and
format_text set, dual_channel cleared, disfluencies set exactly in accurate
mode, and the language code normalized (lower-cased, hyphens to underscores,
defaulting to en_us when blank after trimming). -/
theorem requestTranscript_body_fields (settings : ObsidianAIPluginSettings)
    (uploadUrl : String) :
    (requestTranscriptBody uploadUrl settings).speaker_labels = true
    ∧ (requestTranscriptBody uploadUrl settings).punctuate = true
    ∧ (requestTranscriptBody uploadUrl settings).format_text = true
    ∧ (requestTranscriptBody uploadUrl settings).dual_channel = false
    ∧ ((requestTranscriptBody uploadUrl settings).disfluencies = true
        ↔ settings.transcriptionSettings.accuracySpeed = "accurate")
    ∧ (jsTrim settings.transcriptionSettings.language = "" →
        (requestTranscriptBody uploadUrl settings).language_code = "en_us")
    ∧ (jsTrim settings.transcriptionSettings.language ≠ "" →
        (requestTranscriptBody uploadUrl settings).language_code
          = jsDashToUnderscore (jsToLower (jsTrim settings.transcriptionSettings.language))) := by
  refine ⟨rfl, rfl, rfl, rfl, ?_, ?_, ?_⟩
  · simp [requestTranscriptBody]
  · intro h
    simp [requestTranscriptBody, h]
  · intro h
    simp [requestTranscriptBody, h]

/-- C7 witness: the body fields evaluated at the default settings and at
blank-language accurate-mode settings. -/
theorem requestTranscript_body_witness :
    (requestTranscriptBody "u" DEFAULT_SETTINGS).language_code
        = jsDashToUnderscore (jsToLower (jsTrim "en-US"))
    ∧ (requestTranscriptBody "u" settingsBlankLanguage).language_code = "en_us"
    ∧ ((requestTranscriptBody "u" settingsBlankLanguage).disfluencies = true) := by
  refine ⟨?_, ?_, ?_⟩
  · exact (requestTranscript_body_fields DEFAULT_SETTINGS "u").2.2.2.2.2.2 (by decide)
  · exact (requestTranscript_body_fields settingsBlankLanguage "u").2.2.2.2.2.1 (by decide)
  · exact ((requestTranscript_body_fields settingsBlankLanguage "u").2.2.2.2.1).mpr rfl

theorem jsIncludes_of_appears (s sub : String) (h : sub.data <:+: s.data) :
    jsIncludes s sub = true := by
  simpa [jsIncludes] using h

theorem jsIncludes_middle (a b c : String) : jsIncludes (a ++ b ++ c) b = true := by
  apply jsIncludes_of_appears
  exact ⟨a.data, c.data, by simp [String.data_append]⟩

theorem appendLink_noop_of_included (content name : String)
    (h : jsIncludes content ("[[" ++ name ++ "]]") = true) :
    appendLinkToParentContent content name = content := by
  unfold appendLinkToParentContent
  rw [if_pos h]

theorem appendSummary_noop_of_included (content s : String)
    (h : jsIncludes content "## AI Meeting Summary" = true) :
    appendMeetingSummarySection content s = content := by
  unfold appendMeetingSummarySection
  rw [if_pos h]

theorem appendLink_includes (content name : String) :
    jsIncludes (appendLinkToParentContent content name) ("[[" ++ name ++ "]]") = true := by
  unfold appendLinkToParentContent
  by_cases h : jsIncludes content ("[[" ++ name ++ "]]") = true
  · rw [if_pos h]
    exact h
  · rw [if_neg h]
    exact jsIncludes_middle _ _ _

theorem appendSummary_includes (content s : String) :
    jsIncludes (appendMeetingSummarySection content s) "## AI Meeting Summary" = true := by
  unfold appendMeetingSummarySection
  by_cases h : jsIncludes content "## AI Meeting Summary" = true
  · rw [if_pos h]
    exact h
  · rw [if_neg h]
    apply jsIncludes_of_appears
    have hsplit : ("\n\n## AI Meeting Summary\n\n" : String)
        = "\n\n" ++ "## AI Meeting Summary" ++ "\n\n" := by decide
    rw [hsplit]
    refine ⟨"".data ++ content.data ++ "\n\n".data,
      "\n\n".data ++ s.data ++ "\n".data, ?_⟩
    simp [String.data_append]

/-- C6: appending the back-link to the parent note and appending the AI
summary section are idempotent content transformations: a second invocation
on content that already carries the link, respectively the summary heading,
returns the content unchanged. -/
theorem append_operations_idempotent (c name s s2 : String) :
    appendLinkToParentContent (appendLinkToParentContent c name) name
      = appendLinkToParentContent c name
    ∧ appendMeetingSummarySection (appendMeetingSummarySection c s) s2
      = appendMeetingSummarySection c s :=
  ⟨appendLink_noop_of_included _ name (appendLink_includes c name),
   appendSummary_noop_of_included _ s2 (appendSummary_includes c s)⟩

/-- C10: the summary client makes no service call exactly when auto-summarise
is disabled or both the primary and the legacy key are absent (falsy); a
skipped call returns null; when a call is made it is authorized with the
primary `openAiApiKey` if that is non-empty, else with the legacy
`openAIKey`. -/
theorem generateMeetingSummary_key_fallback (settings : ObsidianAIPluginSettings)
    (transcript : String) (hasTimestamps : Bool) (net : Except Unit (Option String)) :
    ((generateMeetingSummary transcript settings hasTimestamps net).usedKey = none
        ↔ (settings.autoSummarise = false
            ∨ (settings.openAiApiKey = "" ∧ settings.openAIKey.getD "" = "")))
    ∧ ((generateMeetingSummary transcript settings hasTimestamps net).usedKey = none →
        (generateMeetingSummary transcript settings hasTimestamps net).value = none)
    ∧ (settings.autoSummarise = true → settings.openAiApiKey ≠ "" →
        (generateMeetingSummary transcript settings hasTimestamps net).usedKey
          = some settings.openAiApiKey)
    ∧ (settings.autoSummarise = true → settings.openAiApiKey = "" →
        settings.openAIKey.getD "" ≠ "" →
        (generateMeetingSummary transcript settings hasTimestamps net).usedKey
          = some (settings.openAIKey.getD "")) := by
  by_cases ha : settings.autoSummarise = true
  · by_cases h1 : settings.openAiApiKey = ""
    · by_cases h2 : settings.openAIKey.getD "" = ""
      · refine ⟨?_, ?_, ?_, ?_⟩
        · simp [generateMeetingSummary, jsOr, ha, h1, h2]
        · simp [generateMeetingSummary, jsOr, ha, h1, h2]
        · intro _ hk
          exact absurd h1 hk
        · intro _ _ hk
          exact absurd h2 hk
      · rcases net with e | content
        · refine ⟨?_, ?_, ?_, ?_⟩ <;>
            simp [generateMeetingSummary, jsOr, ha, h1, h2]
        · cases content <;> refine ⟨?_, ?_, ?_, ?_⟩ <;>
            simp [generateMeetingSummary, jsOr, ha, h1, h2]
    · rcases net with e | content
      · refine ⟨?_, ?_, ?_, ?_⟩ <;>
          simp [generateMeetingSummary, jsOr, ha, h1]
      · cases content <;> refine ⟨?_, ?_, ?_, ?_⟩ <;>
          simp [generateMeetingSummary, jsOr, ha, h1]
  · refine ⟨?_, ?_, ?_, ?_⟩ <;>
      simp [generateMeetingSummary, jsOr, ha, Bool.eq_false_iff.mpr ha]

/-- C10 witness: skipped with both keys blank, legacy fallback used when only
the legacy key is set, primary key preferred when present. -/
theorem generateMeetingSummary_key_fallback_witness :
    (generateMeetingSummary "t" DEFAULT_SETTINGS false (Except.ok (some "s"))).usedKey = none
    ∧ (generateMeetingSummary "t" settingsLegacyKey false
        (Except.ok (some " s "))).usedKey = some "legacy"
    ∧ (generateMeetingSummary "t" settingsPrimaryKey false
        (Except.error ())).usedKey = some "primary" := by
  refine ⟨?_, ?_, ?_⟩
  · exact (generateMeetingSummary_key_fallback DEFAULT_SETTINGS "t" false
      (Except.ok (some "s"))).1.mpr (Or.inr ⟨rfl, rfl⟩)
  · exact (generateMeetingSummary_key_fallback settingsLegacyKey "t" false
      (Except.ok (some " s "))).2.2.2 rfl rfl (by decide)
  · exact (generateMeetingSummary_key_fallback settingsPrimaryKey "t" false
      (Except.error ())).2.2.1 rfl (by decide)

theorem applyOp_preserves_pausedImpliesMarked (st : ManagerState) (op : RecOp)
    (h : pausedImpliesMarked st) : pausedImpliesMarked (applyOp st op) := by
  cases op with
  | start parent micOk d =>
    intro s hs hp
    cases hsess : st.session with
    | some s0 =>
      have heq : applyOp st (RecOp.start parent micOk d) = st := by
        simp [applyOp, startRecording, hsess]
      rw [heq] at hs
      exact h s hs hp
    | none =>
      by_cases hm : micOk = true
      · have heq : (applyOp st (RecOp.start parent micOk d)).session
            = some ⟨parent, d, none, false, none, some 0⟩ := by
          simp [applyOp, startRecording, hsess, hm]
        rw [heq] at hs
        have hinj := Option.some.inj hs
        rw [← hinj] at hp
        simp at hp
      · have hmf : micOk = false := by revert hm; cases micOk <;> simp
        have heq : (applyOp st (RecOp.start parent micOk d)).session = none := by
          simp [applyOp, startRecording, hsess, hmf]
        rw [heq] at hs
        exact absurd hs (by simp)
  | pause now =>
    intro s hs hp
    by_cases hr : st.hasRecorder = true
    · cases hsess : st.session with
      | none =>
        have heq : applyOp st (RecOp.pause now) = st := by
          simp [applyOp, pauseRecording, hr, hsess]
        rw [heq] at hs
        exact h s hs hp
      | some s0 =>
        by_cases hip : s0.isPaused = true
        · have heq : applyOp st (RecOp.pause now) = st := by
            simp [applyOp, pauseRecording, hr, hsess, hip]
          rw [heq] at hs
          exact h s hs hp
        · have hipf : s0.isPaused = false := by revert hip; cases s0.isPaused <;> simp
          have heq : (applyOp st (RecOp.pause now)).session
              = some { s0 with isPaused := true, pauseStartedAt := some now } := by
            simp [applyOp, pauseRecording, hr, hsess, hipf]
          rw [heq] at hs
          have hinj := Option.some.inj hs
          rw [← hinj]
          rfl
    · have hrf : st.hasRecorder = false := by revert hr; cases st.hasRecorder <;> simp
      have heq : applyOp st (RecOp.pause now) = st := by
        simp [applyOp, pauseRecording, hrf]
      rw [heq] at hs
      exact h s hs hp
  | resume now =>
    intro s hs hp
    by_cases hr : st.hasRecorder = true
    · cases hsess : st.session with
      | none =>
        have heq : applyOp st (RecOp.resume now) = st := by
          simp [applyOp, resumeRecording, hr, hsess]
        rw [heq] at hs
        exact h s hs hp
      | some s0 =>
        by_cases hip : s0.isPaused = true
        · have heq : (applyOp st (RecOp.resume now)).session
              = some { s0 with
                  totalPausedMs :=
                    match s0.pauseStartedAt with
                    | some t =>
                      if t ≠ 0 then some (jsNumOrZero s0.totalPausedMs + (now - t))
                      else s0.totalPausedMs
                    | none => s0.totalPausedMs,
                  pauseStartedAt := none, isPaused := false } := by
            simp [applyOp, resumeRecording, hr, hsess, hip]
          rw [heq] at hs
          have hinj := Option.some.inj hs
          rw [← hinj] at hp
          simp at hp
        · have hipf : s0.isPaused = false := by revert hip; cases s0.isPaused <;> simp
          have heq : applyOp st (RecOp.resume now) = st := by
            simp [applyOp, resumeRecording, hr, hsess, hipf]
          rw [heq] at hs
          exact h s hs hp
    · have hrf : st.hasRecorder = false := by revert hr; cases st.hasRecorder <;> simp
      have heq : applyOp st (RecOp.resume now) = st := by
        simp [applyOp, resumeRecording, hrf]
      rw [heq] at hs
      exact h s hs hp

theorem applyOps_preserves_pausedImpliesMarked (ops : List RecOp) :
    ∀ st : ManagerState, pausedImpliesMarked st → pausedImpliesMarked (applyOps st ops) := by
  induction ops with
  | nil => intro st h; exact h
  | cons op rest ih =>
    intro st h
    exact ih (applyOp st op) (applyOp_preserves_pausedImpliesMarked st op h)

/-! ### C8: session invariants and resume accounting -/

/-- C8: in every manager state reachable from the idle state by
start / pause / resume operations, a paused session has `pauseStartedAt` set;
the elapsed-time query never returns a negative value in any state; and
`resumeRecording` adds the current pause duration to `totalPausedMs` while
clearing `pauseStartedAt` and the paused flag. -/
theorem session_invariants :
    (∀ ops : List RecOp, ∀ s : ActiveRecordingSession,
        (applyOps initialManagerState ops).session = some s →
        s.isPaused = true → s.pauseStartedAt.isSome = true)
    ∧ (∀ (st : ManagerState) (now : Int), 0 ≤ getElapsedRecordingMs st now)
    ∧ (∀ (st : ManagerState) (s : ActiveRecordingSession) (t now : Int),
        st.hasRecorder = true → st.session = some s → s.isPaused = true →
        s.pauseStartedAt = some t → t ≠ 0 →
        (resumeRecording st now).session
          = some { s with totalPausedMs := some (jsNumOrZero s.totalPausedMs + (now - t)), pauseStartedAt := none, isPaused := false }) := by
  refine ⟨?_, ?_, ?_⟩
  · intro ops
    exact applyOps_preserves_pausedImpliesMarked ops initialManagerState
      (fun s hs _ => by simp [initialManagerState] at hs)
  · intro st now
    unfold getElapsedRecordingMs
    cases st.session with
    | none => exact le_refl 0
    | some s => exact le_max_left 0 _
  · intro st s t now hr hs hp hpa ht
    simp [resumeRecording, hr, hs, hp, hpa, ht]

/-- C8 witness: the invariants evaluated on the concrete scenario
start-then-pause, on the idle state, and on a concrete resume. -/
theorem session_invariants_witness :
    pausedSession5.pauseStartedAt.isSome = true
    ∧ 0 ≤ getElapsedRecordingMs initialManagerState 0
    ∧ (resumeRecording ⟨some pausedSession5, true⟩ 9).session
        = some { pausedSession5 with totalPausedMs := some (jsNumOrZero pausedSession5.totalPausedMs + (9 - 5)), pauseStartedAt := none, isPaused := false } := by
  refine ⟨?_, ?_, ?_⟩
  · exact session_invariants.1 [RecOp.start none true epoch0, RecOp.pause 5]
      pausedSession5 (by rfl) rfl
  · exact session_invariants.2.1 initialManagerState 0
  · exact session_invariants.2.2 ⟨some pausedSession5, true⟩ pausedSession5 5 9
      rfl rfl rfl rfl (by decide)

/-! ### C9: starting while active is a state-preserving rejection -/

/-- C9: calling `startRecording` while a session is active returns the
manager state unchanged, with every session field and the capture state
intact, and emits only the already-in-progress notice. -/
theorem startRecording_rejected_when_active (st : ManagerState)
    (s : ActiveRecordingSession) (parent : Option TFileT) (micOk : Bool) (d : DateT)
    (h : st.session = some s) :
    startRecording st parent micOk d = (st, ["Recording already in progress."]) := by
  unfold startRecording
  rw [h]

/-- C9 witness: the rejection evaluated on a concrete paused session. -/
theorem startRecording_rejected_witness :
    startRecording ⟨some pausedSession5, true⟩ none true epoch0
      = (⟨some pausedSession5, true⟩, ["Recording already in progress."]) :=
  startRecording_rejected_when_active ⟨some pausedSession5, true⟩ pausedSession5
    none true epoch0 rfl

/-! ### C5: missing transcription key short-circuits the pipeline -/

/-- C5: with an active session and a blank AssemblyAI key, stopping makes no
request against the transcription service, creates no transcript note, shows
the missing-key notice, ends with the session slot empty, and still saves
the audio file exactly when the binary write succeeds (the vault gains only
that file; on write failure the files are untouched). -/
theorem stopRecording_missing_key (st : ManagerState) (v : Vault)
    (settings : ObsidianAIPluginSettings) (env : StopEnv)
    (session : ActiveRecordingSession)
    (hsess : st.session = some session) (hrec : st.hasRecorder = true)
    (hkey : settings.assemblyAIKey = "") :
    (stopRecording st v settings env).state.session = none
    ∧ (stopRecording st v settings env).transcriptionNetworkCalls = 0
    ∧ (stopRecording st v settings env).notePath = none
    ∧ "AssemblyAI API key missing; skipping transcription."
        ∈ (stopRecording st v settings env).notices
    ∧ (env.saveAudioOk = true →
        ∃ p, (stopRecording st v settings env).audioFilePath = some p
          ∧ (stopRecording st v settings env).vault.files = v.files ++ [(p, env.audioData)])
    ∧ (env.saveAudioOk = false →
        (stopRecording st v settings env).audioFilePath = none
          ∧ (stopRecording st v settings env).vault.files = v.files) := by
  have hfiles : ∀ folder, (ensureFolderExists v folder).files = v.files := by
    intro folder
    unfold ensureFolderExists
    by_cases hmem : normalizePath folder ∈ vaultPaths v
    · rw [if_pos hmem]
    · rw [if_neg hmem]
  cases hsave : env.saveAudioOk with
  | true =>
    have hsavepair : saveAudioFile v settings session.startedAt env
        = ({ ensureFolderExists v (normalizePath (jsOr settings.audioFolderPath "Audio")) with
               files := (ensureFolderExists v
                   (normalizePath (jsOr settings.audioFolderPath "Audio"))).files
                 ++ [(audioSavePath v settings session.startedAt, env.audioData)] },
           Except.ok (audioSavePath v settings session.startedAt)) := by
      unfold saveAudioFile audioSavePath
      rw [hsave]
      simp
    refine ⟨?_, ?_, ?_, ?_, ?_, ?_⟩
    · simp [stopRecording, hsess, hrec, transcribeAudio, hkey, hsavepair]
    · simp [stopRecording, hsess, hrec, transcribeAudio, hkey, hsavepair]
    · simp [stopRecording, hsess, hrec, transcribeAudio, hkey, hsavepair]
    · simp [stopRecording, hsess, hrec, transcribeAudio, hkey, hsavepair]
    · intro _
      refine ⟨audioSavePath v settings session.startedAt, ?_, ?_⟩
      · simp [stopRecording, hsess, hrec, transcribeAudio, hkey, hsavepair]
      · simp only [stopRecording, hsess, hrec, transcribeAudio, hkey]
        simp [hsavepair, hfiles]
    · intro hcontra
      simp at hcontra
  | false =>
    have hsavepair : saveAudioFile v settings session.startedAt env
        = (ensureFolderExists v (normalizePath (jsOr settings.audioFolderPath "Audio")),
           Except.error ()) := by
      unfold saveAudioFile
      rw [hsave]
      simp
    refine ⟨?_, ?_, ?_, ?_, ?_, ?_⟩
    · simp [stopRecording, hsess, hrec, transcribeAudio, hkey, hsavepair]
    · simp [stopRecording, hsess, hrec, transcribeAudio, hkey, hsavepair]
    · simp [stopRecording, hsess, hrec, transcribeAudio, hkey, hsavepair]
    · simp [stopRecording, hsess, hrec, transcribeAudio, hkey, hsavepair]
    · intro hcontra
      simp at hcontra
    · intro _
      constructor
      · simp [stopRecording, hsess, hrec, transcribeAudio, hkey, hsavepair]
      · simp only [stopRecording, hsess, hrec, transcribeAudio, hkey]
        simp [hsavepair, hfiles]

/-- C5 witness: the short-circuit evaluated on a concrete paused session, an
empty vault and the default (blank-key) settings. -/
theorem stopRecording_missing_key_witness :
    (stopRecording ⟨some pausedSession5, true⟩ ⟨[], []⟩ DEFAULT_SETTINGS stopEnvOkSave).state.session = none
    ∧ (stopRecording ⟨some pausedSession5, true⟩ ⟨[], []⟩ DEFAULT_SETTINGS stopEnvOkSave).transcriptionNetworkCalls = 0
    ∧ (stopRecording ⟨some pausedSession5, true⟩ ⟨[], []⟩ DEFAULT_SETTINGS stopEnvOkSave).notePath = none
    ∧ "AssemblyAI API key missing; skipping transcription."
        ∈ (stopRecording ⟨some pausedSession5, true⟩ ⟨[], []⟩ DEFAULT_SETTINGS stopEnvOkSave).notices
    ∧ ∃ p, (stopRecording ⟨some pausedSession5, true⟩ ⟨[], []⟩ DEFAULT_SETTINGS stopEnvOkSave).audioFilePath = some p
        ∧ (stopRecording ⟨some pausedSession5, true⟩ ⟨[], []⟩ DEFAULT_SETTINGS stopEnvOkSave).vault.files
            = [] ++ [(p, "AUDIO-BYTES")] := by
  have h := stopRecording_missing_key ⟨some pausedSession5, true⟩ ⟨[], []⟩ DEFAULT_SETTINGS
    stopEnvOkSave pausedSession5 rfl rfl rfl
  exact ⟨h.1, h.2.1, h.2.2.1, h.2.2.2.1, h.2.2.2.2.1 rfl⟩

end ObsidianAI
